import Mathlib

/-!
Verification of the two C shim functions in
`Sources/CLegacyLibICU/shims.c` (`uatmufmt_getTimePattern` and
`uatmufmt_getListPattern`).

The repository itself contains only the two shims; the ICU routines they
call (`ures_open`, `ures_getByKeyWithFallback`,
`ures_getStringByKeyWithFallback`, `u_strncpy`, `u_terminateUChars`) are
declared in `shims.c` but implemented in the external ICU library, so they
are modelled here from the specification of the locale resource lookup
contract: a hierarchical key-value store with a locale fallback chain
(descend the key path; on a miss, replace the locale with its parent and
retry; fail at the root), plus the standard ICU copy/terminate buffer
contract.
-/

/-- A UTF-16 code unit value (C `UChar`). -/
abbrev UChar := Nat

/-- A C `UErrorCode` value: 0 is `U_ZERO_ERROR`, negative values are
warnings, positive values are failures. -/
abbrev UErrorCode := Int

def U_ZERO_ERROR : UErrorCode := 0

def U_ILLEGAL_ARGUMENT_ERROR : UErrorCode := 1

def U_MISSING_RESOURCE_ERROR : UErrorCode := 2

def U_BUFFER_OVERFLOW_ERROR : UErrorCode := 15

def U_RESOURCE_TYPE_MISMATCH : UErrorCode := 17

def U_STRING_NOT_TERMINATED_WARNING : UErrorCode := -124

/-- C macro `U_FAILURE(x)`: the code signals failure. -/
def U_FAILURE (c : UErrorCode) : Bool := decide (U_ZERO_ERROR < c)

/-- C macro `U_SUCCESS(x)`: the code signals success (possibly a warning). -/
def U_SUCCESS (c : UErrorCode) : Bool := decide (c ≤ U_ZERO_ERROR)

/-- The C enum `UATimeUnitTimePattern` constant `UATIMEUNITTIMEPAT_HM`.
The enum carrier is modelled as `Int` because a C caller may pass any
integer value, including one outside the declared variants. -/
def UATIMEUNITTIMEPAT_HM : Int := 0

def UATIMEUNITTIMEPAT_HMS : Int := 1

def UATIMEUNITTIMEPAT_MS : Int := 2

/-- The C enum `UATimeUnitStyle` constant `UATIMEUNITSTYLE_FULL`. -/
def UATIMEUNITSTYLE_FULL : Int := 0

def UATIMEUNITSTYLE_ABBREVIATED : Int := 1

def UATIMEUNITSTYLE_NARROW : Int := 2

def UATIMEUNITSTYLE_SHORTER : Int := 3

/-- The C enum `UATimeUnitListPattern` constant `UATIMEUNITLISTPAT_TWO_ONLY`. -/
def UATIMEUNITLISTPAT_TWO_ONLY : Int := 0

def UATIMEUNITLISTPAT_END_PIECE : Int := 1

def UATIMEUNITLISTPAT_MIDDLE_PIECE : Int := 2

def UATIMEUNITLISTPAT_START_PIECE : Int := 3

/-- Modelled from the spec: a resource bundle is an immutable hierarchical
node, conceptually a mapping from key to child bundle or string. -/
inductive ResTree where
  | table (entries : List (String × ResTree))
  | str (chars : List UChar)
deriving Repr

/-- Modelled from the spec: the compiled locale data store backing the ICU
resource machinery, which is not part of this repository. `chain l` is the
locale fallback chain for locale `l`, most specific first, ending at the
root locale; `bundle pkg l` is the compiled bundle tree for locale `l` in
package `pkg` (`none` is the default package); `defaultLocale` is used by
`ures_open` when the caller passes a null locale. -/
structure ResStore where
  defaultLocale : String
  chain : String → List String
  bundle : Option String → String → Option ResTree

/-- The package name macro `U_ICUDATA_UNIT` (the unit-data package of the
ICU data file, `U_ICUDATA_NAME "/unit"`); `none` models a null package
name, i.e. the default package. -/
def U_ICUDATA_UNIT : Option String := some "ICUDATA-unit"

/-- Look a key up in the entry list of a table node. -/
def lookupKey : List (String × ResTree) → String → Option ResTree
  | [], _ => none
  | (k, t) :: rest, key => if k = key then some t else lookupKey rest key

/-- Descend a chain of keys inside a single bundle tree. -/
def lookupPath : ResTree → List String → Option ResTree
  | t, [] => some t
  | ResTree.table es, k :: ks =>
      match lookupKey es k with
      | some t => lookupPath t ks
      | none => none
  | ResTree.str _, _ :: _ => none

/-- Modelled from the spec: resolve a key path through the locale fallback
chain, trying the full path in each bundle of the chain in order and
returning the first hit (descend key path; on miss, replace locale with
parent; retry; fail at root). -/
def resolvePath : List ResTree → List String → Option ResTree
  | [], _ => none
  | r :: rs, p =>
      match lookupPath r p with
      | some t => some t
      | none => resolvePath rs p

/-- The bundle trees of the fallback chain of `locale` (the default locale
when `locale` is null) inside package `pkg`, most specific first. -/
def openRoots (store : ResStore) (pkg : Option String) (locale : Option String) : List ResTree :=
  (store.chain (locale.getD store.defaultLocale)).filterMap (store.bundle pkg)

/-- Modelled from the spec: an open resource bundle handle, remembering the
fallback chain of root bundles it was opened on and the key path descended
so far. -/
structure UResourceBundle where
  roots : List ResTree
  path : List String

/-- Modelled from the spec: `ures_open` opens the bundle tree rooted at the
given package for the given locale (the default locale when null). On a
status already signalling failure it does nothing; when no data exists for
the whole fallback chain it fails with a missing-resource error. -/
def ures_open (store : ResStore) (packageName : Option String) (locale : Option String)
    (status : UErrorCode) : Option UResourceBundle × UErrorCode :=
  if U_FAILURE status then (none, status)
  else
    let roots := openRoots store packageName locale
    if roots.isEmpty then (none, U_MISSING_RESOURCE_ERROR)
    else (some ⟨roots, []⟩, status)

/-- Modelled from the spec: `ures_getByKeyWithFallback` descends one key,
resolving through the locale fallback chain; a key that resolves nowhere in
the chain is a missing-resource failure. A status already signalling
failure short-circuits. -/
def ures_getByKeyWithFallback (resB : Option UResourceBundle) (inKey : String)
    (status : UErrorCode) : Option UResourceBundle × UErrorCode :=
  if U_FAILURE status then (resB, status)
  else
    match resB with
    | none => (none, U_MISSING_RESOURCE_ERROR)
    | some b =>
        let path1 := b.path ++ [inKey]
        match resolvePath b.roots path1 with
        | some _ => (some ⟨b.roots, path1⟩, status)
        | none => (none, U_MISSING_RESOURCE_ERROR)

/-- Modelled from the spec: `ures_getStringByKeyWithFallback` descends one
final key and returns the resolved string with its length. The length
out-parameter is left at the caller's initial value (0 in both shims) on
any failure. A resolved node that is not a string is a type mismatch
failure. -/
def ures_getStringByKeyWithFallback (resB : Option UResourceBundle) (inKey : String)
    (status : UErrorCode) : Option (List UChar) × Int × UErrorCode :=
  if U_FAILURE status then (none, 0, status)
  else
    match resB with
    | none => (none, 0, U_MISSING_RESOURCE_ERROR)
    | some b =>
        match resolvePath b.roots (b.path ++ [inKey]) with
        | some (ResTree.str s) => (some s, (s.length : Int), status)
        | some (ResTree.table _) => (none, 0, U_RESOURCE_TYPE_MISMATCH)
        | none => (none, 0, U_MISSING_RESOURCE_ERROR)

/-- Modelled from the spec: the copy loop of ICU `u_strncpy`, which copies
code units from `src` into consecutive buffer cells starting at index `i`,
stopping after `n` units have been copied or after a terminating 0 unit has
been copied, whichever comes first. The buffer is a total map from cell
index to code unit. -/
def u_strncpyAux (dst : Nat → UChar) (src : List UChar) (i n : Nat) : Nat → UChar :=
  match n, src with
  | 0, _ => dst
  | _ + 1, [] => dst
  | m + 1, c :: rest =>
      let dst1 : Nat → UChar := fun j => if j = i then c else dst j
      if c = 0 then dst1 else u_strncpyAux dst1 rest (i + 1) m

/-- Modelled from the spec: ICU `u_strncpy` on an optional (possibly null)
destination buffer. The source string is stored without its terminator, so
the terminating 0 unit that follows it in the ICU data is appended here. A
null destination receives no write (in the shims it is only reached with
capacity 0, where the C loop body never executes). -/
def u_strncpy (dst : Option (Nat → UChar)) (src : Option (List UChar)) (n : Int) :
    Option (Nat → UChar) :=
  match dst, src with
  | some d, some s => some (u_strncpyAux d (s ++ [0]) 0 n.toNat)
  | _, _ => dst

/-- Modelled from the spec: ICU `u_terminateUChars`. On a successful status
with `0 ≤ length < destCapacity` it writes a terminating 0 unit at index
`length` and clears a pending string-not-terminated warning; with
`length = destCapacity` it writes nothing and sets the
string-not-terminated warning; with `length > destCapacity` it sets the
buffer-overflow error. It always returns `length`. -/
def u_terminateUChars (dest : Option (Nat → UChar)) (destCapacity : Int) (length : Int)
    (status : UErrorCode) : Option (Nat → UChar) × UErrorCode × Int :=
  if U_SUCCESS status then
    if length < 0 then (dest, status, length)
    else if length < destCapacity then
      (dest.map (fun d => fun j => if j = length.toNat then 0 else d j),
       if status = U_STRING_NOT_TERMINATED_WARNING then U_ZERO_ERROR else status,
       length)
    else if length = destCapacity then (dest, U_STRING_NOT_TERMINATED_WARNING, length)
    else (dest, U_BUFFER_OVERFLOW_ERROR, length)
  else (dest, status, length)

/-- The buffer validity check shared by both shims
(`result == NULL ? resultCapacity != 0 : resultCapacity < 0`): true when
the buffer/capacity combination is illegal. -/
def invalidBuffer (result : Option (Nat → UChar)) (resultCapacity : Int) : Bool :=
  match result with
  | none => resultCapacity != 0
  | some _ => decide (resultCapacity < 0)

/-- The `switch (type)` of `uatmufmt_getTimePattern`: the data key for a
time pattern kind, `none` for an out-of-range enum value. -/
def timePatternKey (t : Int) : Option String :=
  if t = UATIMEUNITTIMEPAT_HM then some "hm"
  else if t = UATIMEUNITTIMEPAT_HMS then some "hms"
  else if t = UATIMEUNITTIMEPAT_MS then some "ms"
  else none

/-- The `switch (style)` of `uatmufmt_getListPattern`: the data key for a
display style, `none` for an out-of-range enum value. -/
def styleKey (style : Int) : Option String :=
  if style = UATIMEUNITSTYLE_FULL then some "unit"
  else if style = UATIMEUNITSTYLE_ABBREVIATED then some "unit-short"
  else if style = UATIMEUNITSTYLE_NARROW then some "unit-narrow"
  else if style = UATIMEUNITSTYLE_SHORTER then some "unit-narrow"
  else none

/-- The `switch (type)` of `uatmufmt_getListPattern`: the data key for a
list position kind, `none` for an out-of-range enum value. -/
def listPatternTypeKey (t : Int) : Option String :=
  if t = UATIMEUNITLISTPAT_TWO_ONLY then some "2"
  else if t = UATIMEUNITLISTPAT_END_PIECE then some "end"
  else if t = UATIMEUNITLISTPAT_MIDDLE_PIECE then some "middle"
  else if t = UATIMEUNITLISTPAT_START_PIECE then some "start"
  else none

/-- The observable outcome of one shim call: the returned length, the final
buffer contents (`none` for a null buffer pointer), and the final status. -/
structure ShimResult where
  ret : Int
  buf : Option (Nat → UChar)
  status : UErrorCode

/-- The resolution sequence of `uatmufmt_getTimePattern` (shims.c lines
41-43): open the unit-data bundle for the locale, descend "durationUnits",
then resolve the kind key to a string. -/
def timePatternResolve (store : ResStore) (locale : Option String) (key : String)
    (status : UErrorCode) : Option (List UChar) × Int × UErrorCode :=
  let o := ures_open store U_ICUDATA_UNIT locale status
  let g := ures_getByKeyWithFallback o.1 "durationUnits" o.2
  ures_getStringByKeyWithFallback g.1 key g.2

/-- The resolution sequence of `uatmufmt_getListPattern` (shims.c lines
73-76): open the default-package bundle for the locale, descend
"listPattern", descend the style key, then resolve the position key to a
string. -/
def listPatternResolve (store : ResStore) (locale : Option String) (sKey tKey : String)
    (status : UErrorCode) : Option (List UChar) × Int × UErrorCode :=
  let o := ures_open store none locale status
  let g1 := ures_getByKeyWithFallback o.1 "listPattern" o.2
  let g2 := ures_getByKeyWithFallback g1.1 sKey g1.2
  ures_getStringByKeyWithFallback g2.1 tKey g2.2

/-- Shallow embedding of `uatmufmt_getTimePattern` (shims.c lines 25-47).
The store stands for the compiled locale data reached through the ICU
calls; the C out-parameters become fields of the result. -/
def uatmufmt_getTimePattern (store : ResStore) (locale : Option String) (t : Int)
    (result : Option (Nat → UChar)) (resultCapacity : Int) (status : UErrorCode) :
    ShimResult :=
  if U_FAILURE status then ⟨0, result, status⟩
  else if invalidBuffer result resultCapacity then ⟨0, result, U_ILLEGAL_ARGUMENT_ERROR⟩
  else
    match timePatternKey t with
    | none => ⟨0, result, U_ILLEGAL_ARGUMENT_ERROR⟩
    | some key =>
        let r := timePatternResolve store locale key status
        let result1 := if U_SUCCESS r.2.2 then u_strncpy result r.1 resultCapacity else result
        let tm := u_terminateUChars result1 resultCapacity r.2.1 r.2.2
        ⟨tm.2.2, tm.1, tm.2.1⟩

/-- Shallow embedding of `uatmufmt_getListPattern` (shims.c lines 48-80). -/
def uatmufmt_getListPattern (store : ResStore) (locale : Option String) (style : Int)
    (t : Int) (result : Option (Nat → UChar)) (resultCapacity : Int) (status : UErrorCode) :
    ShimResult :=
  if U_FAILURE status then ⟨0, result, status⟩
  else if invalidBuffer result resultCapacity then ⟨0, result, U_ILLEGAL_ARGUMENT_ERROR⟩
  else
    match styleKey style with
    | none => ⟨0, result, U_ILLEGAL_ARGUMENT_ERROR⟩
    | some sKey =>
        match listPatternTypeKey t with
        | none => ⟨0, result, U_ILLEGAL_ARGUMENT_ERROR⟩
        | some tKey =>
            let r := listPatternResolve store locale sKey tKey status
            let result1 :=
              if U_SUCCESS r.2.2 then u_strncpy result r.1 resultCapacity else result
            let tm := u_terminateUChars result1 resultCapacity r.2.1 r.2.2
            ⟨tm.2.2, tm.1, tm.2.1⟩

/-- Written from the words of the spec, for comparison with the embedding:
resolve a key path to a string by trying the full path against each bundle
of the locale fallback chain in order. This is the one-shot form of the
resolution contract the spec states for both lookups. -/
def specStringAtPath (store : ResStore) (pkg : Option String) (locale : Option String)
    (path : List String) : Option (List UChar) :=
  match resolvePath (openRoots store pkg locale) path with
  | some (ResTree.str s) => some s
  | _ => none

/-- A concrete pattern string, "h:mm" as UTF-16 code units. -/
def demoTimePattern : List UChar := [104, 58, 109, 109]

/-- A concrete list-pattern fragment, "{0}, {1}" as UTF-16 code units. -/
def demoListPattern : List UChar := [123, 48, 125, 44, 32, 123, 49, 125]

/-- A concrete unit-data bundle tree holding the duration-unit patterns. -/
def demoUnitTree : ResTree :=
  ResTree.table [("durationUnits", ResTree.table
    [("hm", ResTree.str demoTimePattern),
     ("hms", ResTree.str [104, 58, 109, 109, 58, 115, 115]),
     ("ms", ResTree.str [109, 58, 115, 115])])]

/-- A concrete default-package bundle tree holding list patterns for the
"unit" style. -/
def demoRootTree : ResTree :=
  ResTree.table [("listPattern", ResTree.table
    [("unit", ResTree.table
      [("2", ResTree.str demoListPattern),
       ("end", ResTree.str [101]),
       ("middle", ResTree.str [109]),
       ("start", ResTree.str [115])])])]

/-- A concrete store: the locale "en-US" has no data of its own and falls
back to "en", which holds both bundle trees. -/
def demoStore : ResStore where
  defaultLocale := "en"
  chain := fun l => if l = "en-US" then ["en-US", "en", "root"] else [l, "root"]
  bundle := fun pkg l =>
    if pkg = U_ICUDATA_UNIT then (if l = "en" then some demoUnitTree else none)
    else if pkg = none then (if l = "en" then some demoRootTree else none)
    else none

/-- A concrete buffer filled with a sentinel value. -/
def demoBuf : Nat → UChar := fun _ => 42

/-- A second concrete buffer filled with a different sentinel value. -/
def demoBuf2 : Nat → UChar := fun _ => 77

/-- A successful status value is not a failing one. -/
theorem succ_not_fail {c : UErrorCode} (h : U_SUCCESS c = true) : U_FAILURE c = false := by
  have h1 : c ≤ 0 := by simpa [U_SUCCESS, U_ZERO_ERROR] using h
  simp only [U_FAILURE, U_ZERO_ERROR, decide_eq_false_iff_not, not_lt]
  exact h1

/-- A failing status value is not a successful one. -/
theorem fail_not_succ {c : UErrorCode} (h : U_FAILURE c = true) : U_SUCCESS c = false := by
  have h1 : (0 : Int) < c := by simpa [U_FAILURE, U_ZERO_ERROR] using h
  simp only [U_SUCCESS, U_ZERO_ERROR, decide_eq_false_iff_not, not_le]
  exact h1

/-- If a path extended by one key resolves inside a single tree, the path
itself resolves in that tree. -/
theorem lookupPath_append (r : ResTree) (p : List String) (k : String) (t : ResTree)
    (h : lookupPath r (p ++ [k]) = some t) : ∃ u, lookupPath r p = some u := by
  induction p generalizing r with
  | nil => exact ⟨r, by simp [lookupPath]⟩
  | cons a p ih =>
      cases r with
      | str s => simp [lookupPath] at h
      | table es =>
          simp only [List.cons_append, lookupPath] at h ⊢
          generalize hk : lookupKey es a = lk at h ⊢
          cases lk with
          | none => exact Option.noConfusion h
          | some r1 => exact ih r1 h

/-- If a path extended by one key resolves through the fallback chain, the
path itself resolves through the chain. -/
theorem resolvePath_append (roots : List ResTree) (p : List String) (k : String) (t : ResTree)
    (h : resolvePath roots (p ++ [k]) = some t) : ∃ u, resolvePath roots p = some u := by
  induction roots with
  | nil => simp [resolvePath] at h
  | cons r rs ih =>
      simp only [resolvePath] at h ⊢
      generalize hr : lookupPath r (p ++ [k]) = lr at h
      cases lr with
      | some t1 =>
          obtain ⟨u, hu⟩ := lookupPath_append r p k t1 hr
          rw [hu]
          exact ⟨u, rfl⟩
      | none =>
          obtain ⟨u, hu⟩ := ih h
          generalize hp : lookupPath r p = lp
          cases lp with
          | some v => exact ⟨v, rfl⟩
          | none => exact ⟨u, hu⟩

/-- Pointwise characterization of the `u_strncpy` copy loop on a source
string with no embedded 0 unit followed by its terminator: the cells from
`i` up to the number of copied units hold the source, every other cell is
untouched. -/
theorem u_strncpyAux_char (s : List UChar) (hs : 0 ∉ s) (d : Nat → UChar) (i n j : Nat) :
    u_strncpyAux d (s ++ [0]) i n j =
      if i ≤ j ∧ j < i + min n (s.length + 1) then (s ++ [0]).getD (j - i) 0 else d j := by
  induction s generalizing d i n with
  | nil =>
      cases n with
      | zero =>
          simp only [u_strncpyAux, List.length_nil, Nat.min_zero, Nat.zero_min, Nat.add_zero]
          rw [if_neg (by omega)]
      | succ m =>
          have hstep : u_strncpyAux d ([] ++ [0]) i (m + 1) j
              = if j = i then 0 else d j := by
            simp [u_strncpyAux]
          rw [hstep]
          simp only [List.length_nil, List.nil_append, Nat.zero_add]
          by_cases hj : j = i
          · subst hj
            rw [if_pos rfl, if_pos ⟨le_refl j, by omega⟩]
            simp
          · rw [if_neg hj, if_neg (by omega)]
  | cons c s ih =>
      have hc : c ≠ 0 := fun h => hs (h ▸ List.mem_cons_self c s)
      have hs' : 0 ∉ s := fun h => hs (List.mem_cons_of_mem c h)
      cases n with
      | zero =>
          simp only [u_strncpyAux, Nat.zero_min, Nat.min_zero, Nat.add_zero]
          rw [if_neg (by omega)]
      | succ m =>
          have hstep : u_strncpyAux d ((c :: s) ++ [0]) i (m + 1) j
              = u_strncpyAux (fun j => if j = i then c else d j) (s ++ [0]) (i + 1) m j := by
            simp [u_strncpyAux, hc]
          rw [hstep, ih hs']
          by_cases hj : j = i
          · subst hj
            rw [if_neg (by omega), if_pos rfl,
                if_pos ⟨le_refl j, by simp only [List.length_cons]; omega⟩]
            simp
          · by_cases hcond : i + 1 ≤ j ∧ j < i + 1 + min m (s.length + 1)
            · rw [if_pos hcond, if_pos (by simp only [List.length_cons]; omega)]
              rw [show j - i = (j - (i + 1)) + 1 from by omega]
              simp [List.getD_cons_succ]
            · rw [if_neg hcond, if_neg hj,
                  if_neg (by simp only [List.length_cons]; omega)]

/-- `u_terminateUChars` always returns the `length` argument. -/
theorem u_terminateUChars_ret (dest : Option (Nat → UChar)) (destCapacity : Int)
    (length : Int) (status : UErrorCode) :
    (u_terminateUChars dest destCapacity length status).2.2 = length := by
  unfold u_terminateUChars
  split
  · split
    · rfl
    · split
      · rfl
      · split <;> rfl
  · rfl

/-- On a status already signalling failure, the time-pattern resolution
sequence does nothing: no string, length 0, status unchanged. -/
theorem timePatternResolve_entry_fail (store : ResStore) (locale : Option String)
    (key : String) (st : UErrorCode) (h : U_FAILURE st = true) :
    timePatternResolve store locale key st = (none, 0, st) := by
  simp [timePatternResolve, ures_open, ures_getByKeyWithFallback,
    ures_getStringByKeyWithFallback, h]

/-- On a status already signalling failure, the list-pattern resolution
sequence does nothing: no string, length 0, status unchanged. -/
theorem listPatternResolve_entry_fail (store : ResStore) (locale : Option String)
    (sKey tKey : String) (st : UErrorCode) (h : U_FAILURE st = true) :
    listPatternResolve store locale sKey tKey st = (none, 0, st) := by
  simp [listPatternResolve, ures_open, ures_getByKeyWithFallback,
    ures_getStringByKeyWithFallback, h]

/-- When the spec-level resolution finds a string, the staged time-pattern
resolution sequence returns exactly that string, its length, and the
incoming (successful) status. -/
theorem timePatternResolve_spec_some (store : ResStore) (locale : Option String)
    (key : String) (st : UErrorCode) (s : List UChar) (hst : U_SUCCESS st = true)
    (h : specStringAtPath store U_ICUDATA_UNIT locale ["durationUnits", key] = some s) :
    timePatternResolve store locale key st = (some s, (s.length : Int), st) := by
  have hfail := succ_not_fail hst
  unfold specStringAtPath at h
  generalize hroots : openRoots store U_ICUDATA_UNIT locale = roots at h
  generalize h2 : resolvePath roots ["durationUnits", key] = res2 at h
  cases res2 with
  | none => simp at h
  | some t =>
      cases t with
      | table es => simp at h
      | str s1 =>
          simp only [Option.some.injEq] at h
          subst h
          obtain ⟨u, hu⟩ := resolvePath_append roots ["durationUnits"] key _ h2
          cases roots with
          | nil => simp [resolvePath] at hu
          | cons r rs =>
              simp [timePatternResolve, ures_open, ures_getByKeyWithFallback,
                ures_getStringByKeyWithFallback, hfail, hroots, hu, h2]

/-- When the spec-level resolution finds a string, the staged list-pattern
resolution sequence returns exactly that string, its length, and the
incoming (successful) status. -/
theorem listPatternResolve_spec_some (store : ResStore) (locale : Option String)
    (sKey tKey : String) (st : UErrorCode) (s : List UChar) (hst : U_SUCCESS st = true)
    (h : specStringAtPath store none locale ["listPattern", sKey, tKey] = some s) :
    listPatternResolve store locale sKey tKey st = (some s, (s.length : Int), st) := by
  have hfail := succ_not_fail hst
  unfold specStringAtPath at h
  generalize hroots : openRoots store none locale = roots at h
  generalize h3 : resolvePath roots ["listPattern", sKey, tKey] = res3 at h
  cases res3 with
  | none => simp at h
  | some t =>
      cases t with
      | table es => simp at h
      | str s1 =>
          simp only [Option.some.injEq] at h
          subst h
          obtain ⟨u2, hu2⟩ := resolvePath_append roots ["listPattern", sKey] tKey _ h3
          obtain ⟨u1, hu1⟩ := resolvePath_append roots ["listPattern"] sKey _ hu2
          cases roots with
          | nil => simp [resolvePath] at hu1
          | cons r rs =>
              simp [listPatternResolve, ures_open, ures_getByKeyWithFallback,
                ures_getStringByKeyWithFallback, hfail, hroots, hu1, hu2, h3]

/-- When the spec-level resolution finds no string, the staged time-pattern
resolution sequence fails: no string, length 0, and a distinct failing
status. -/
theorem timePatternResolve_spec_none (store : ResStore) (locale : Option String)
    (key : String) (st : UErrorCode) (hst : U_SUCCESS st = true)
    (h : specStringAtPath store U_ICUDATA_UNIT locale ["durationUnits", key] = none) :
    ∃ e, U_FAILURE e = true ∧ timePatternResolve store locale key st = (none, 0, e) := by
  have hfail := succ_not_fail hst
  have hmiss : U_FAILURE U_MISSING_RESOURCE_ERROR = true := by decide
  have hmm : U_FAILURE U_RESOURCE_TYPE_MISMATCH = true := by decide
  unfold specStringAtPath at h
  generalize hroots : openRoots store U_ICUDATA_UNIT locale = roots at h
  cases roots with
  | nil =>
      refine ⟨U_MISSING_RESOURCE_ERROR, hmiss, ?_⟩
      simp [timePatternResolve, ures_open, ures_getByKeyWithFallback,
        ures_getStringByKeyWithFallback, hfail, hroots, hmiss]
  | cons r rs =>
      cases h1 : resolvePath (r :: rs) ["durationUnits"] with
      | none =>
          refine ⟨U_MISSING_RESOURCE_ERROR, hmiss, ?_⟩
          simp [timePatternResolve, ures_open, ures_getByKeyWithFallback,
            ures_getStringByKeyWithFallback, hfail, hroots, h1, hmiss]
      | some u =>
          generalize h2 : resolvePath (r :: rs) ["durationUnits", key] = res2 at h
          cases res2 with
          | none =>
              refine ⟨U_MISSING_RESOURCE_ERROR, hmiss, ?_⟩
              simp [timePatternResolve, ures_open, ures_getByKeyWithFallback,
                ures_getStringByKeyWithFallback, hfail, hroots, h1, h2, hmiss]
          | some t =>
              cases t with
              | str s => simp at h
              | table es =>
                  refine ⟨U_RESOURCE_TYPE_MISMATCH, hmm, ?_⟩
                  simp [timePatternResolve, ures_open, ures_getByKeyWithFallback,
                    ures_getStringByKeyWithFallback, hfail, hroots, h1, h2, hmm]

/-- When the spec-level resolution finds no string, the staged list-pattern
resolution sequence fails: no string, length 0, and a distinct failing
status. -/
theorem listPatternResolve_spec_none (store : ResStore) (locale : Option String)
    (sKey tKey : String) (st : UErrorCode) (hst : U_SUCCESS st = true)
    (h : specStringAtPath store none locale ["listPattern", sKey, tKey] = none) :
    ∃ e, U_FAILURE e = true ∧ listPatternResolve store locale sKey tKey st = (none, 0, e) := by
  have hfail := succ_not_fail hst
  have hmiss : U_FAILURE U_MISSING_RESOURCE_ERROR = true := by decide
  have hmm : U_FAILURE U_RESOURCE_TYPE_MISMATCH = true := by decide
  unfold specStringAtPath at h
  generalize hroots : openRoots store none locale = roots at h
  cases roots with
  | nil =>
      refine ⟨U_MISSING_RESOURCE_ERROR, hmiss, ?_⟩
      simp [listPatternResolve, ures_open, ures_getByKeyWithFallback,
        ures_getStringByKeyWithFallback, hfail, hroots, hmiss]
  | cons r rs =>
      cases h1 : resolvePath (r :: rs) ["listPattern"] with
      | none =>
          refine ⟨U_MISSING_RESOURCE_ERROR, hmiss, ?_⟩
          simp [listPatternResolve, ures_open, ures_getByKeyWithFallback,
            ures_getStringByKeyWithFallback, hfail, hroots, h1, hmiss]
      | some u1 =>
          cases h2 : resolvePath (r :: rs) ["listPattern", sKey] with
          | none =>
              refine ⟨U_MISSING_RESOURCE_ERROR, hmiss, ?_⟩
              simp [listPatternResolve, ures_open, ures_getByKeyWithFallback,
                ures_getStringByKeyWithFallback, hfail, hroots, h1, h2, hmiss]
          | some u2 =>
              generalize h3 : resolvePath (r :: rs) ["listPattern", sKey, tKey] = res3 at h
              cases res3 with
              | none =>
                  refine ⟨U_MISSING_RESOURCE_ERROR, hmiss, ?_⟩
                  simp [listPatternResolve, ures_open, ures_getByKeyWithFallback,
                    ures_getStringByKeyWithFallback, hfail, hroots, h1, h2, h3, hmiss]
              | some t =>
                  cases t with
                  | str s => simp at h
                  | table es =>
                      refine ⟨U_RESOURCE_TYPE_MISMATCH, hmm, ?_⟩
                      simp [listPatternResolve, ures_open, ures_getByKeyWithFallback,
                        ures_getStringByKeyWithFallback, hfail, hroots, h1, h2, h3, hmm]

/-- A status value that is not successful is failing. -/
theorem not_succ_fail {c : UErrorCode} (h : ¬ U_SUCCESS c = true) : U_FAILURE c = true := by
  have h1 : ¬ (c ≤ 0) := fun hle => h (by simpa [U_SUCCESS, U_ZERO_ERROR] using hle)
  have h2 : (0 : Int) < c := not_le.mp h1
  simpa [U_FAILURE, U_ZERO_ERROR] using h2

/-- A string produced by the staged time-pattern resolution sequence came
from a successful entry status and the spec-level resolution. -/
theorem timePatternResolve_some_inv (store : ResStore) (locale : Option String)
    (key : String) (st : UErrorCode) (s : List UChar)
    (h : (timePatternResolve store locale key st).1 = some s) :
    U_SUCCESS st = true ∧
    specStringAtPath store U_ICUDATA_UNIT locale ["durationUnits", key] = some s := by
  by_cases hst : U_SUCCESS st = true
  · refine ⟨hst, ?_⟩
    cases hspec : specStringAtPath store U_ICUDATA_UNIT locale ["durationUnits", key] with
    | some s1 =>
        rw [timePatternResolve_spec_some store locale key st s1 hst hspec] at h
        simpa using h
    | none =>
        obtain ⟨e, he, heq⟩ := timePatternResolve_spec_none store locale key st hst hspec
        rw [heq] at h
        simp at h
  · have hf : U_FAILURE st = true := not_succ_fail hst
    rw [timePatternResolve_entry_fail store locale key st hf] at h
    simp at h

/-- A string produced by the staged list-pattern resolution sequence came
from a successful entry status and the spec-level resolution. -/
theorem listPatternResolve_some_inv (store : ResStore) (locale : Option String)
    (sKey tKey : String) (st : UErrorCode) (s : List UChar)
    (h : (listPatternResolve store locale sKey tKey st).1 = some s) :
    U_SUCCESS st = true ∧
    specStringAtPath store none locale ["listPattern", sKey, tKey] = some s := by
  by_cases hst : U_SUCCESS st = true
  · refine ⟨hst, ?_⟩
    cases hspec : specStringAtPath store none locale ["listPattern", sKey, tKey] with
    | some s1 =>
        rw [listPatternResolve_spec_some store locale sKey tKey st s1 hst hspec] at h
        simpa using h
    | none =>
        obtain ⟨e, he, heq⟩ := listPatternResolve_spec_none store locale sKey tKey st hst hspec
        rw [heq] at h
        simp at h
  · have hf : U_FAILURE st = true := not_succ_fail hst
    rw [listPatternResolve_entry_fail store locale sKey tKey st hf] at h
    simp at h

/-- Copy and terminate phase when the resolved string fits strictly inside
the capacity: the buffer receives the string and a terminating 0 unit, the
final status is successful, cells past the terminator are untouched, and
the returned value is the string length. -/
theorem fillPhase_lt (s : List UChar) (hs : 0 ∉ s) (buf : Nat → UChar) (cap : Int)
    (st : UErrorCode) (hst : U_SUCCESS st = true) (hcap : (s.length : Int) < cap) :
    ∃ f st1, u_terminateUChars (u_strncpy (some buf) (some s) cap) cap (s.length : Int) st
        = (some f, st1, (s.length : Int)) ∧ U_SUCCESS st1 = true ∧
      (∀ j, j < s.length → f j = s.getD j 0) ∧ f s.length = 0 ∧
      (∀ j, s.length < j → f j = buf j) := by
  have hcapn : s.length + 1 ≤ cap.toNat := by omega
  set g := u_strncpyAux buf (s ++ [0]) 0 cap.toNat with hg
  have hcopy : u_strncpy (some buf) (some s) cap = some g := rfl
  refine ⟨fun j => if j = ((s.length : Int)).toNat then 0 else g j,
    if st = U_STRING_NOT_TERMINATED_WARNING then U_ZERO_ERROR else st, ?_, ?_, ?_, ?_, ?_⟩
  · rw [hcopy]
    unfold u_terminateUChars
    rw [if_pos hst, if_neg (by omega), if_pos hcap]
    rfl
  · by_cases hw : st = U_STRING_NOT_TERMINATED_WARNING
    · rw [if_pos hw]; decide
    · rw [if_neg hw]; exact hst
  · intro j hj
    show (if j = ((s.length : Int)).toNat then 0 else g j) = s.getD j 0
    rw [if_neg (by omega), hg, u_strncpyAux_char s hs buf 0 cap.toNat j,
        if_pos ⟨Nat.zero_le j, by omega⟩]
    simp only [Nat.sub_zero]
    simp [List.getD_eq_getElem?_getD, List.getElem?_append_left hj]
  · show (if s.length = ((s.length : Int)).toNat then 0 else g s.length) = 0
    rw [if_pos (by omega)]
  · intro j hj
    show (if j = ((s.length : Int)).toNat then 0 else g j) = buf j
    rw [if_neg (by omega), hg, u_strncpyAux_char s hs buf 0 cap.toNat j,
        if_neg (by omega)]

/-- Copy and terminate phase when the resolved string length equals the
capacity exactly: the buffer receives the string but no terminating 0 unit,
every cell at or past the string length is untouched, the final status is
the string-not-terminated warning, and the returned value is the string
length. -/
theorem fillPhase_eq (s : List UChar) (hs : 0 ∉ s) (buf : Nat → UChar)
    (st : UErrorCode) (hst : U_SUCCESS st = true) :
    ∃ f, u_terminateUChars (u_strncpy (some buf) (some s) (s.length : Int)) (s.length : Int)
          (s.length : Int) st
        = (some f, U_STRING_NOT_TERMINATED_WARNING, (s.length : Int)) ∧
      (∀ j, j < s.length → f j = s.getD j 0) ∧
      (∀ j, s.length ≤ j → f j = buf j) := by
  set g := u_strncpyAux buf (s ++ [0]) 0 ((s.length : Int)).toNat with hg
  have hcopy : u_strncpy (some buf) (some s) (s.length : Int) = some g := rfl
  refine ⟨g, ?_, ?_, ?_⟩
  · rw [hcopy]
    unfold u_terminateUChars
    rw [if_pos hst, if_neg (by omega), if_neg (by omega), if_pos rfl]
  · intro j hj
    rw [hg, u_strncpyAux_char s hs buf 0 _ j, if_pos ⟨Nat.zero_le j, by omega⟩]
    simp only [Nat.sub_zero]
    simp [List.getD_eq_getElem?_getD, List.getElem?_append_left hj]
  · intro j hj
    rw [hg, u_strncpyAux_char s hs buf 0 _ j, if_neg (by omega)]

/-- With a successful entry status, a valid buffer, and a valid kind
selector, the time-pattern shim reduces to its resolve sequence followed by
the copy and terminate phase. -/
theorem getTimePattern_unfold (store : ResStore) (locale : Option String) (t : Int)
    (key : String) (result : Option (Nat → UChar)) (cap : Int) (st : UErrorCode)
    (hst : U_SUCCESS st = true) (hbuf : invalidBuffer result cap = false)
    (hkey : timePatternKey t = some key) :
    uatmufmt_getTimePattern store locale t result cap st =
      (let r := timePatternResolve store locale key st
       let result1 := if U_SUCCESS r.2.2 then u_strncpy result r.1 cap else result
       let tm := u_terminateUChars result1 cap r.2.1 r.2.2
       ⟨tm.2.2, tm.1, tm.2.1⟩) := by
  have hfail := succ_not_fail hst
  simp [uatmufmt_getTimePattern, hfail, hbuf, hkey]

/-- With a successful entry status, a valid buffer, and valid style and
position selectors, the list-pattern shim reduces to its resolve sequence
followed by the copy and terminate phase. -/
theorem getListPattern_unfold (store : ResStore) (locale : Option String) (style t : Int)
    (sKey tKey : String) (result : Option (Nat → UChar)) (cap : Int) (st : UErrorCode)
    (hst : U_SUCCESS st = true) (hbuf : invalidBuffer result cap = false)
    (hsk : styleKey style = some sKey) (htk : listPatternTypeKey t = some tKey) :
    uatmufmt_getListPattern store locale style t result cap st =
      (let r := listPatternResolve store locale sKey tKey st
       let result1 := if U_SUCCESS r.2.2 then u_strncpy result r.1 cap else result
       let tm := u_terminateUChars result1 cap r.2.1 r.2.2
       ⟨tm.2.2, tm.1, tm.2.1⟩) := by
  have hfail := succ_not_fail hst
  simp [uatmufmt_getListPattern, hfail, hbuf, hsk, htk]

/-- With a successful entry status, a valid buffer, a valid kind selector,
and a spec-resolvable pattern, the time-pattern shim is exactly the copy
and terminate phase applied to that pattern. -/
theorem getTimePattern_success_form (store : ResStore) (locale : Option String) (t : Int)
    (key : String) (result : Option (Nat → UChar)) (cap : Int) (st : UErrorCode)
    (s : List UChar) (hst : U_SUCCESS st = true) (hbuf : invalidBuffer result cap = false)
    (hkey : timePatternKey t = some key)
    (hspec : specStringAtPath store U_ICUDATA_UNIT locale ["durationUnits", key] = some s) :
    uatmufmt_getTimePattern store locale t result cap st =
      (let tm := u_terminateUChars (u_strncpy result (some s) cap) cap (s.length : Int) st
       ⟨tm.2.2, tm.1, tm.2.1⟩) := by
  rw [getTimePattern_unfold store locale t key result cap st hst hbuf hkey]
  have hre := timePatternResolve_spec_some store locale key st s hst hspec
  simp [hre, hst]

/-- With a successful entry status, a valid buffer, valid selectors, and a
spec-resolvable pattern, the list-pattern shim is exactly the copy and
terminate phase applied to that pattern. -/
theorem getListPattern_success_form (store : ResStore) (locale : Option String)
    (style t : Int) (sKey tKey : String) (result : Option (Nat → UChar)) (cap : Int)
    (st : UErrorCode) (s : List UChar) (hst : U_SUCCESS st = true)
    (hbuf : invalidBuffer result cap = false)
    (hsk : styleKey style = some sKey) (htk : listPatternTypeKey t = some tKey)
    (hspec : specStringAtPath store none locale ["listPattern", sKey, tKey] = some s) :
    uatmufmt_getListPattern store locale style t result cap st =
      (let tm := u_terminateUChars (u_strncpy result (some s) cap) cap (s.length : Int) st
       ⟨tm.2.2, tm.1, tm.2.1⟩) := by
  rw [getListPattern_unfold store locale style t sKey tKey result cap st hst hbuf hsk htk]
  have hre := listPatternResolve_spec_some store locale sKey tKey st s hst hspec
  simp [hre, hst]

/-- C3: on a status already signalling failure on entry, each function
returns 0 and leaves the status and the buffer unchanged, and no lookup
work occurs: the outcome is the same for every store, so no resource-bundle
access can influence it. -/
theorem entry_failure_noop (store : ResStore) (locale : Option String) (t style tp : Int)
    (result : Option (Nat → UChar)) (cap : Int) (st : UErrorCode)
    (h : U_FAILURE st = true) :
    uatmufmt_getTimePattern store locale t result cap st = ⟨0, result, st⟩ ∧
    uatmufmt_getListPattern store locale style tp result cap st = ⟨0, result, st⟩ := by
  constructor <;> simp [uatmufmt_getTimePattern, uatmufmt_getListPattern, h]

theorem entry_failure_noop_witness :
    uatmufmt_getTimePattern demoStore (some "en-US") UATIMEUNITTIMEPAT_HM none 0
        U_ILLEGAL_ARGUMENT_ERROR = ⟨0, none, U_ILLEGAL_ARGUMENT_ERROR⟩ ∧
    uatmufmt_getListPattern demoStore (some "en-US") UATIMEUNITSTYLE_FULL
        UATIMEUNITLISTPAT_TWO_ONLY none 0 U_ILLEGAL_ARGUMENT_ERROR
      = ⟨0, none, U_ILLEGAL_ARGUMENT_ERROR⟩ :=
  entry_failure_noop demoStore (some "en-US") UATIMEUNITTIMEPAT_HM UATIMEUNITSTYLE_FULL
    UATIMEUNITLISTPAT_TWO_ONLY none 0 U_ILLEGAL_ARGUMENT_ERROR (by decide)

/-- C4: with a successful entry status, a null buffer is accepted exactly
when the capacity is 0 and a non-null buffer exactly when the capacity is
nonnegative; every other combination makes both functions return 0 with the
invalid-argument status and an unchanged buffer. -/
theorem buffer_capacity_validation (store : ResStore) (locale : Option String)
    (t style tp : Int) (result : Option (Nat → UChar)) (cap : Int) (st : UErrorCode)
    (hst : U_SUCCESS st = true) :
    (invalidBuffer result cap = true ↔
      ((result = none ∧ cap ≠ 0) ∨ (result ≠ none ∧ cap < 0))) ∧
    (invalidBuffer result cap = true →
      uatmufmt_getTimePattern store locale t result cap st
          = ⟨0, result, U_ILLEGAL_ARGUMENT_ERROR⟩ ∧
      uatmufmt_getListPattern store locale style tp result cap st
          = ⟨0, result, U_ILLEGAL_ARGUMENT_ERROR⟩) := by
  have hfail := succ_not_fail hst
  constructor
  · cases result <;> simp [invalidBuffer]
  · intro hb
    constructor <;> simp [uatmufmt_getTimePattern, uatmufmt_getListPattern, hfail, hb]

theorem buffer_capacity_validation_witness :
    (invalidBuffer none 5 = true ↔
      (((none : Option (Nat → UChar)) = none ∧ (5 : Int) ≠ 0) ∨
        ((none : Option (Nat → UChar)) ≠ none ∧ (5 : Int) < 0))) ∧
    (invalidBuffer none 5 = true →
      uatmufmt_getTimePattern demoStore (some "en-US") UATIMEUNITTIMEPAT_HM none 5 U_ZERO_ERROR
          = ⟨0, none, U_ILLEGAL_ARGUMENT_ERROR⟩ ∧
      uatmufmt_getListPattern demoStore (some "en-US") UATIMEUNITSTYLE_FULL
          UATIMEUNITLISTPAT_TWO_ONLY none 5 U_ZERO_ERROR
          = ⟨0, none, U_ILLEGAL_ARGUMENT_ERROR⟩) :=
  buffer_capacity_validation demoStore (some "en-US") UATIMEUNITTIMEPAT_HM
    UATIMEUNITSTYLE_FULL UATIMEUNITLISTPAT_TWO_ONLY none 5 U_ZERO_ERROR (by decide)

/-- C5: with a successful entry status and a valid buffer, an out-of-range
selector enum value makes the function return 0 with the invalid-argument
status, for every locale. -/
theorem invalid_selector_rejected (store : ResStore) (locale : Option String)
    (t style tp : Int) (result : Option (Nat → UChar)) (cap : Int) (st : UErrorCode)
    (hst : U_SUCCESS st = true) (hbuf : invalidBuffer result cap = false) :
    (timePatternKey t = none →
      uatmufmt_getTimePattern store locale t result cap st
        = ⟨0, result, U_ILLEGAL_ARGUMENT_ERROR⟩) ∧
    (styleKey style = none ∨ listPatternTypeKey tp = none →
      uatmufmt_getListPattern store locale style tp result cap st
        = ⟨0, result, U_ILLEGAL_ARGUMENT_ERROR⟩) := by
  have hfail := succ_not_fail hst
  constructor
  · intro hk
    simp [uatmufmt_getTimePattern, hfail, hbuf, hk]
  · intro hk
    rcases hk with hk | hk
    · simp [uatmufmt_getListPattern, hfail, hbuf, hk]
    · cases hsk : styleKey style with
      | none => simp [uatmufmt_getListPattern, hfail, hbuf, hsk]
      | some sk => simp [uatmufmt_getListPattern, hfail, hbuf, hsk, hk]

theorem invalid_selector_rejected_witness :
    uatmufmt_getTimePattern demoStore (some "en-US") 9 (some demoBuf) 8 U_ZERO_ERROR
        = ⟨0, some demoBuf, U_ILLEGAL_ARGUMENT_ERROR⟩ ∧
    uatmufmt_getListPattern demoStore (some "en-US") 9 9 (some demoBuf) 8 U_ZERO_ERROR
        = ⟨0, some demoBuf, U_ILLEGAL_ARGUMENT_ERROR⟩ :=
  ⟨(invalid_selector_rejected demoStore (some "en-US") 9 9 9 (some demoBuf) 8 U_ZERO_ERROR
      (by decide) (by decide)).1 (by decide),
   (invalid_selector_rejected demoStore (some "en-US") 9 9 9 (some demoBuf) 8 U_ZERO_ERROR
      (by decide) (by decide)).2 (Or.inl (by decide))⟩

/-- C8: for every store, locale, list-position kind, buffer, capacity, and
entry status, the list-pattern shim behaves identically for the narrow and
the shorter style: both map to the data key "unit-narrow". -/
theorem narrow_shorter_alias (store : ResStore) (locale : Option String) (tp : Int)
    (result : Option (Nat → UChar)) (cap : Int) (st : UErrorCode) :
    uatmufmt_getListPattern store locale UATIMEUNITSTYLE_NARROW tp result cap st =
    uatmufmt_getListPattern store locale UATIMEUNITSTYLE_SHORTER tp result cap st := by
  have h2 : styleKey UATIMEUNITSTYLE_NARROW = some "unit-narrow" := by decide
  have h3 : styleKey UATIMEUNITSTYLE_SHORTER = some "unit-narrow" := by decide
  simp [uatmufmt_getListPattern, h2, h3]

/-- C2: each lookup resolves its pattern by descending exactly the stated
key chain with locale fallback: the time-pattern shim resolves
["durationUnits", kind key] in the unit-data package with kind key one of
"hm"/"hms"/"ms", and the list-pattern shim resolves
["listPattern", style key, position key] in the default package with
position key one of "2"/"end"/"middle"/"start". -/
theorem resolution_key_chain :
    (∀ t key, timePatternKey t = some key →
      (key = "hm" ∨ key = "hms" ∨ key = "ms") ∧
      ∀ (store : ResStore) (locale : Option String) (st : UErrorCode), U_SUCCESS st = true →
        (timePatternResolve store locale key st).1
          = specStringAtPath store U_ICUDATA_UNIT locale ["durationUnits", key]) ∧
    (∀ style tp sKey tKey, styleKey style = some sKey → listPatternTypeKey tp = some tKey →
      (sKey = "unit" ∨ sKey = "unit-short" ∨ sKey = "unit-narrow") ∧
      (tKey = "2" ∨ tKey = "end" ∨ tKey = "middle" ∨ tKey = "start") ∧
      ∀ (store : ResStore) (locale : Option String) (st : UErrorCode), U_SUCCESS st = true →
        (listPatternResolve store locale sKey tKey st).1
          = specStringAtPath store none locale ["listPattern", sKey, tKey]) := by
  have teq : ∀ (store : ResStore) (locale : Option String) (key : String) (st : UErrorCode),
      U_SUCCESS st = true →
      (timePatternResolve store locale key st).1
        = specStringAtPath store U_ICUDATA_UNIT locale ["durationUnits", key] := by
    intro store locale key st hst
    cases hspec : specStringAtPath store U_ICUDATA_UNIT locale ["durationUnits", key] with
    | some s => rw [timePatternResolve_spec_some store locale key st s hst hspec]
    | none =>
        obtain ⟨e, he, heq⟩ := timePatternResolve_spec_none store locale key st hst hspec
        rw [heq]
  have leq : ∀ (store : ResStore) (locale : Option String) (sKey tKey : String)
      (st : UErrorCode), U_SUCCESS st = true →
      (listPatternResolve store locale sKey tKey st).1
        = specStringAtPath store none locale ["listPattern", sKey, tKey] := by
    intro store locale sKey tKey st hst
    cases hspec : specStringAtPath store none locale ["listPattern", sKey, tKey] with
    | some s => rw [listPatternResolve_spec_some store locale sKey tKey st s hst hspec]
    | none =>
        obtain ⟨e, he, heq⟩ := listPatternResolve_spec_none store locale sKey tKey st hst hspec
        rw [heq]
  constructor
  · intro t key h
    refine ⟨?_, fun store locale st hst => teq store locale key st hst⟩
    unfold timePatternKey at h
    split_ifs at h
    · exact Or.inl (Option.some.inj h).symm
    · exact Or.inr (Or.inl (Option.some.inj h).symm)
    · exact Or.inr (Or.inr (Option.some.inj h).symm)
  · intro style tp sKey tKey hsk htk
    refine ⟨?_, ?_, fun store locale st hst => leq store locale sKey tKey st hst⟩
    · unfold styleKey at hsk
      split_ifs at hsk
      · exact Or.inl (Option.some.inj hsk).symm
      · exact Or.inr (Or.inl (Option.some.inj hsk).symm)
      · exact Or.inr (Or.inr (Option.some.inj hsk).symm)
      · exact Or.inr (Or.inr (Option.some.inj hsk).symm)
    · unfold listPatternTypeKey at htk
      split_ifs at htk
      · exact Or.inl (Option.some.inj htk).symm
      · exact Or.inr (Or.inl (Option.some.inj htk).symm)
      · exact Or.inr (Or.inr (Or.inl (Option.some.inj htk).symm))
      · exact Or.inr (Or.inr (Or.inr (Option.some.inj htk).symm))

theorem resolution_key_chain_witness :
    (("hm" = "hm" ∨ "hm" = "hms" ∨ "hm" = "ms") ∧
      (timePatternResolve demoStore (some "en-US") "hm" U_ZERO_ERROR).1
        = specStringAtPath demoStore U_ICUDATA_UNIT (some "en-US") ["durationUnits", "hm"]) ∧
    (("2" = "2" ∨ "2" = "end" ∨ "2" = "middle" ∨ "2" = "start") ∧
      (listPatternResolve demoStore (some "en-US") "unit" "2" U_ZERO_ERROR).1
        = specStringAtPath demoStore none (some "en-US") ["listPattern", "unit", "2"]) :=
  ⟨⟨(resolution_key_chain.1 UATIMEUNITTIMEPAT_HM "hm" (by decide)).1,
    (resolution_key_chain.1 UATIMEUNITTIMEPAT_HM "hm" (by decide)).2 demoStore
      (some "en-US") U_ZERO_ERROR (by decide)⟩,
   ⟨(resolution_key_chain.2 UATIMEUNITSTYLE_FULL UATIMEUNITLISTPAT_TWO_ONLY "unit" "2"
      (by decide) (by decide)).2.1,
    (resolution_key_chain.2 UATIMEUNITSTYLE_FULL UATIMEUNITLISTPAT_TWO_ONLY "unit" "2"
      (by decide) (by decide)).2.2 demoStore (some "en-US") U_ZERO_ERROR (by decide)⟩⟩

/-- C6: the value returned by either shim is the length of the resolved
pattern, independent of the supplied capacity; in particular a call with a
null buffer and capacity 0 (a preflight call) returns the required length. -/
theorem preflight_length (store : ResStore) (locale : Option String) (t style tp : Int)
    (key sKey tKey : String) (result : Option (Nat → UChar)) (cap : Int) (st : UErrorCode)
    (s sl : List UChar)
    (hbuf : invalidBuffer result cap = false)
    (hkey : timePatternKey t = some key)
    (hres : (timePatternResolve store locale key st).1 = some s)
    (hsk : styleKey style = some sKey) (htk : listPatternTypeKey tp = some tKey)
    (hresl : (listPatternResolve store locale sKey tKey st).1 = some sl) :
    (uatmufmt_getTimePattern store locale t result cap st).ret = (s.length : Int) ∧
    (uatmufmt_getTimePattern store locale t none 0 st).ret = (s.length : Int) ∧
    (uatmufmt_getListPattern store locale style tp result cap st).ret = (sl.length : Int) ∧
    (uatmufmt_getListPattern store locale style tp none 0 st).ret = (sl.length : Int) := by
  obtain ⟨hst, hspec⟩ := timePatternResolve_some_inv store locale key st s hres
  obtain ⟨_, hspecl⟩ := listPatternResolve_some_inv store locale sKey tKey st sl hresl
  refine ⟨?_, ?_, ?_, ?_⟩
  · rw [getTimePattern_success_form store locale t key result cap st s hst hbuf hkey hspec]
    simp [u_terminateUChars_ret]
  · rw [getTimePattern_success_form store locale t key none 0 st s hst (by decide) hkey hspec]
    simp [u_terminateUChars_ret]
  · rw [getListPattern_success_form store locale style tp sKey tKey result cap st sl hst hbuf
      hsk htk hspecl]
    simp [u_terminateUChars_ret]
  · rw [getListPattern_success_form store locale style tp sKey tKey none 0 st sl hst
      (by decide) hsk htk hspecl]
    simp [u_terminateUChars_ret]

theorem preflight_length_witness :
    (uatmufmt_getTimePattern demoStore (some "en-US") UATIMEUNITTIMEPAT_HM (some demoBuf) 2
        U_ZERO_ERROR).ret = (demoTimePattern.length : Int) ∧
    (uatmufmt_getTimePattern demoStore (some "en-US") UATIMEUNITTIMEPAT_HM none 0
        U_ZERO_ERROR).ret = (demoTimePattern.length : Int) ∧
    (uatmufmt_getListPattern demoStore (some "en-US") UATIMEUNITSTYLE_FULL
        UATIMEUNITLISTPAT_TWO_ONLY (some demoBuf) 2 U_ZERO_ERROR).ret
      = (demoListPattern.length : Int) ∧
    (uatmufmt_getListPattern demoStore (some "en-US") UATIMEUNITSTYLE_FULL
        UATIMEUNITLISTPAT_TWO_ONLY none 0 U_ZERO_ERROR).ret
      = (demoListPattern.length : Int) :=
  preflight_length demoStore (some "en-US") UATIMEUNITTIMEPAT_HM UATIMEUNITSTYLE_FULL
    UATIMEUNITLISTPAT_TWO_ONLY "hm" "unit" "2" (some demoBuf) 2 U_ZERO_ERROR
    demoTimePattern demoListPattern (by decide) (by decide) (by decide) (by decide)
    (by decide) (by decide)

/-- C1: for a valid (locale, selector) input whose resolved pattern fits
strictly inside the given capacity, the returned value is the pattern
length, and the buffer holds the pattern followed by a terminating 0 unit
within capacity. -/
theorem sufficient_capacity_roundtrip (store : ResStore) (locale : Option String)
    (t style tp : Int) (key sKey tKey : String) (buf bufl : Nat → UChar) (cap capl : Int)
    (st : UErrorCode) (s sl : List UChar)
    (hst : U_SUCCESS st = true)
    (hkey : timePatternKey t = some key)
    (hspec : specStringAtPath store U_ICUDATA_UNIT locale ["durationUnits", key] = some s)
    (hs : 0 ∉ s) (hcap : (s.length : Int) < cap)
    (hsk : styleKey style = some sKey) (htk : listPatternTypeKey tp = some tKey)
    (hspecl : specStringAtPath store none locale ["listPattern", sKey, tKey] = some sl)
    (hsl : 0 ∉ sl) (hcapl : (sl.length : Int) < capl) :
    ((uatmufmt_getTimePattern store locale t (some buf) cap st).ret = (s.length : Int) ∧
      ∃ f, (uatmufmt_getTimePattern store locale t (some buf) cap st).buf = some f ∧
        (∀ j, j < s.length → f j = s.getD j 0) ∧ f s.length = 0) ∧
    ((uatmufmt_getListPattern store locale style tp (some bufl) capl st).ret
        = (sl.length : Int) ∧
      ∃ f, (uatmufmt_getListPattern store locale style tp (some bufl) capl st).buf = some f ∧
        (∀ j, j < sl.length → f j = sl.getD j 0) ∧ f sl.length = 0) := by
  have hbuf : invalidBuffer (some buf) cap = false := by
    simp only [invalidBuffer, decide_eq_false_iff_not, not_lt]
    omega
  have hbufl : invalidBuffer (some bufl) capl = false := by
    simp only [invalidBuffer, decide_eq_false_iff_not, not_lt]
    omega
  constructor
  · rw [getTimePattern_success_form store locale t key (some buf) cap st s hst hbuf hkey hspec]
    obtain ⟨f, st1, heq, hsucc, hcont, hterm, hframe⟩ := fillPhase_lt s hs buf cap st hst hcap
    rw [heq]
    exact ⟨rfl, f, rfl, hcont, hterm⟩
  · rw [getListPattern_success_form store locale style tp sKey tKey (some bufl) capl st sl
      hst hbufl hsk htk hspecl]
    obtain ⟨f, st1, heq, hsucc, hcont, hterm, hframe⟩ :=
      fillPhase_lt sl hsl bufl capl st hst hcapl
    rw [heq]
    exact ⟨rfl, f, rfl, hcont, hterm⟩

theorem sufficient_capacity_roundtrip_witness :
    ((uatmufmt_getTimePattern demoStore (some "en-US") UATIMEUNITTIMEPAT_HM (some demoBuf) 10
        U_ZERO_ERROR).ret = (demoTimePattern.length : Int) ∧
      ∃ f, (uatmufmt_getTimePattern demoStore (some "en-US") UATIMEUNITTIMEPAT_HM
          (some demoBuf) 10 U_ZERO_ERROR).buf = some f ∧
        (∀ j, j < demoTimePattern.length → f j = demoTimePattern.getD j 0) ∧
        f demoTimePattern.length = 0) ∧
    ((uatmufmt_getListPattern demoStore (some "en-US") UATIMEUNITSTYLE_FULL
        UATIMEUNITLISTPAT_TWO_ONLY (some demoBuf2) 10 U_ZERO_ERROR).ret
        = (demoListPattern.length : Int) ∧
      ∃ f, (uatmufmt_getListPattern demoStore (some "en-US") UATIMEUNITSTYLE_FULL
          UATIMEUNITLISTPAT_TWO_ONLY (some demoBuf2) 10 U_ZERO_ERROR).buf = some f ∧
        (∀ j, j < demoListPattern.length → f j = demoListPattern.getD j 0) ∧
        f demoListPattern.length = 0) :=
  sufficient_capacity_roundtrip demoStore (some "en-US") UATIMEUNITTIMEPAT_HM
    UATIMEUNITSTYLE_FULL UATIMEUNITLISTPAT_TWO_ONLY "hm" "unit" "2" demoBuf demoBuf2 10 10
    U_ZERO_ERROR demoTimePattern demoListPattern (by decide) (by decide) (by decide)
    (by decide) (by decide) (by decide) (by decide) (by decide) (by decide) (by decide)

/-- C10: when the resolved pattern length equals the capacity exactly, the
pattern is copied but no terminating 0 unit is written, the status becomes
the string-not-terminated warning, and the returned value is still the
pattern length; a terminator is only written when the length is strictly
below the capacity. -/
theorem exact_fit (store : ResStore) (locale : Option String) (t style tp : Int)
    (key sKey tKey : String) (buf bufl : Nat → UChar) (st : UErrorCode) (s sl : List UChar)
    (hst : U_SUCCESS st = true)
    (hkey : timePatternKey t = some key)
    (hspec : specStringAtPath store U_ICUDATA_UNIT locale ["durationUnits", key] = some s)
    (hs : 0 ∉ s)
    (hsk : styleKey style = some sKey) (htk : listPatternTypeKey tp = some tKey)
    (hspecl : specStringAtPath store none locale ["listPattern", sKey, tKey] = some sl)
    (hsl : 0 ∉ sl) :
    ((uatmufmt_getTimePattern store locale t (some buf) (s.length : Int) st).ret
        = (s.length : Int) ∧
      (uatmufmt_getTimePattern store locale t (some buf) (s.length : Int) st).status
        = U_STRING_NOT_TERMINATED_WARNING ∧
      ∃ f, (uatmufmt_getTimePattern store locale t (some buf) (s.length : Int) st).buf
          = some f ∧
        (∀ j, j < s.length → f j = s.getD j 0) ∧
        (∀ j, s.length ≤ j → f j = buf j)) ∧
    ((uatmufmt_getListPattern store locale style tp (some bufl) (sl.length : Int) st).ret
        = (sl.length : Int) ∧
      (uatmufmt_getListPattern store locale style tp (some bufl) (sl.length : Int) st).status
        = U_STRING_NOT_TERMINATED_WARNING ∧
      ∃ f, (uatmufmt_getListPattern store locale style tp (some bufl) (sl.length : Int)
            st).buf = some f ∧
        (∀ j, j < sl.length → f j = sl.getD j 0) ∧
        (∀ j, sl.length ≤ j → f j = bufl j)) := by
  have hbuf : invalidBuffer (some buf) (s.length : Int) = false := by
    simp only [invalidBuffer, decide_eq_false_iff_not, not_lt]
    omega
  have hbufl : invalidBuffer (some bufl) (sl.length : Int) = false := by
    simp only [invalidBuffer, decide_eq_false_iff_not, not_lt]
    omega
  constructor
  · rw [getTimePattern_success_form store locale t key (some buf) (s.length : Int) st s hst
      hbuf hkey hspec]
    obtain ⟨f, heq, hcont, hframe⟩ := fillPhase_eq s hs buf st hst
    rw [heq]
    exact ⟨rfl, rfl, f, rfl, hcont, hframe⟩
  · rw [getListPattern_success_form store locale style tp sKey tKey (some bufl)
      (sl.length : Int) st sl hst hbufl hsk htk hspecl]
    obtain ⟨f, heq, hcont, hframe⟩ := fillPhase_eq sl hsl bufl st hst
    rw [heq]
    exact ⟨rfl, rfl, f, rfl, hcont, hframe⟩

theorem exact_fit_witness :
    ((uatmufmt_getTimePattern demoStore (some "en-US") UATIMEUNITTIMEPAT_HM (some demoBuf)
        (demoTimePattern.length : Int) U_ZERO_ERROR).ret = (demoTimePattern.length : Int) ∧
      (uatmufmt_getTimePattern demoStore (some "en-US") UATIMEUNITTIMEPAT_HM (some demoBuf)
        (demoTimePattern.length : Int) U_ZERO_ERROR).status
        = U_STRING_NOT_TERMINATED_WARNING ∧
      ∃ f, (uatmufmt_getTimePattern demoStore (some "en-US") UATIMEUNITTIMEPAT_HM
          (some demoBuf) (demoTimePattern.length : Int) U_ZERO_ERROR).buf = some f ∧
        (∀ j, j < demoTimePattern.length → f j = demoTimePattern.getD j 0) ∧
        (∀ j, demoTimePattern.length ≤ j → f j = demoBuf j)) ∧
    ((uatmufmt_getListPattern demoStore (some "en-US") UATIMEUNITSTYLE_FULL
        UATIMEUNITLISTPAT_TWO_ONLY (some demoBuf2) (demoListPattern.length : Int)
        U_ZERO_ERROR).ret = (demoListPattern.length : Int) ∧
      (uatmufmt_getListPattern demoStore (some "en-US") UATIMEUNITSTYLE_FULL
        UATIMEUNITLISTPAT_TWO_ONLY (some demoBuf2) (demoListPattern.length : Int)
        U_ZERO_ERROR).status = U_STRING_NOT_TERMINATED_WARNING ∧
      ∃ f, (uatmufmt_getListPattern demoStore (some "en-US") UATIMEUNITSTYLE_FULL
          UATIMEUNITLISTPAT_TWO_ONLY (some demoBuf2) (demoListPattern.length : Int)
          U_ZERO_ERROR).buf = some f ∧
        (∀ j, j < demoListPattern.length → f j = demoListPattern.getD j 0) ∧
        (∀ j, demoListPattern.length ≤ j → f j = demoBuf2 j)) :=
  exact_fit demoStore (some "en-US") UATIMEUNITTIMEPAT_HM UATIMEUNITSTYLE_FULL
    UATIMEUNITLISTPAT_TWO_ONLY "hm" "unit" "2" demoBuf demoBuf2 U_ZERO_ERROR
    demoTimePattern demoListPattern (by decide) (by decide) (by decide) (by decide)
    (by decide) (by decide) (by decide) (by decide)

/-- C9: every failure — invalid buffer/capacity combination, out-of-range
selector enum, or a pattern missing after exhausting the locale fallback
chain — leaves a failing status in the out-parameter, returns 0, and
performs no write at all to the buffer. -/
theorem failure_atomic (store : ResStore) (locale : Option String) (t style tp : Int)
    (result : Option (Nat → UChar)) (cap : Int) (st : UErrorCode)
    (hst : U_SUCCESS st = true) :
    (invalidBuffer result cap = true →
      U_FAILURE U_ILLEGAL_ARGUMENT_ERROR = true ∧
      uatmufmt_getTimePattern store locale t result cap st
          = ⟨0, result, U_ILLEGAL_ARGUMENT_ERROR⟩ ∧
      uatmufmt_getListPattern store locale style tp result cap st
          = ⟨0, result, U_ILLEGAL_ARGUMENT_ERROR⟩) ∧
    (invalidBuffer result cap = false → timePatternKey t = none →
      U_FAILURE U_ILLEGAL_ARGUMENT_ERROR = true ∧
      uatmufmt_getTimePattern store locale t result cap st
          = ⟨0, result, U_ILLEGAL_ARGUMENT_ERROR⟩) ∧
    (invalidBuffer result cap = false →
      (styleKey style = none ∨ listPatternTypeKey tp = none) →
      U_FAILURE U_ILLEGAL_ARGUMENT_ERROR = true ∧
      uatmufmt_getListPattern store locale style tp result cap st
          = ⟨0, result, U_ILLEGAL_ARGUMENT_ERROR⟩) ∧
    (∀ key, invalidBuffer result cap = false → timePatternKey t = some key →
      specStringAtPath store U_ICUDATA_UNIT locale ["durationUnits", key] = none →
      ∃ e, U_FAILURE e = true ∧
        uatmufmt_getTimePattern store locale t result cap st = ⟨0, result, e⟩) ∧
    (∀ sKey tKey, invalidBuffer result cap = false →
      styleKey style = some sKey → listPatternTypeKey tp = some tKey →
      specStringAtPath store none locale ["listPattern", sKey, tKey] = none →
      ∃ e, U_FAILURE e = true ∧
        uatmufmt_getListPattern store locale style tp result cap st = ⟨0, result, e⟩) := by
  have hfail := succ_not_fail hst
  refine ⟨?_, ?_, ?_, ?_, ?_⟩
  · intro hb
    refine ⟨by decide, ?_, ?_⟩
    · simp [uatmufmt_getTimePattern, hfail, hb]
    · simp [uatmufmt_getListPattern, hfail, hb]
  · intro hb hk
    exact ⟨by decide, by simp [uatmufmt_getTimePattern, hfail, hb, hk]⟩
  · intro hb hk
    refine ⟨by decide, ?_⟩
    rcases hk with hk | hk
    · simp [uatmufmt_getListPattern, hfail, hb, hk]
    · cases hsk : styleKey style with
      | none => simp [uatmufmt_getListPattern, hfail, hb, hsk]
      | some sk => simp [uatmufmt_getListPattern, hfail, hb, hsk, hk]
  · intro key hb hk hspec
    obtain ⟨e, he, heq⟩ := timePatternResolve_spec_none store locale key st hst hspec
    refine ⟨e, he, ?_⟩
    rw [getTimePattern_unfold store locale t key result cap st hst hb hk]
    have hns := fail_not_succ he
    simp [heq, hns, u_terminateUChars]
  · intro sKey tKey hb hsk htk hspec
    obtain ⟨e, he, heq⟩ := listPatternResolve_spec_none store locale sKey tKey st hst hspec
    refine ⟨e, he, ?_⟩
    rw [getListPattern_unfold store locale style tp sKey tKey result cap st hst hb hsk htk]
    have hns := fail_not_succ he
    simp [heq, hns, u_terminateUChars]

theorem failure_atomic_witness :
    (U_FAILURE U_ILLEGAL_ARGUMENT_ERROR = true ∧
      uatmufmt_getTimePattern demoStore (some "en-US") UATIMEUNITTIMEPAT_HM (some demoBuf)
          (-1) U_ZERO_ERROR = ⟨0, some demoBuf, U_ILLEGAL_ARGUMENT_ERROR⟩ ∧
      uatmufmt_getListPattern demoStore (some "en-US") UATIMEUNITSTYLE_FULL
          UATIMEUNITLISTPAT_TWO_ONLY (some demoBuf) (-1) U_ZERO_ERROR
        = ⟨0, some demoBuf, U_ILLEGAL_ARGUMENT_ERROR⟩) ∧
    (∃ e, U_FAILURE e = true ∧
      uatmufmt_getTimePattern demoStore (some "zz") UATIMEUNITTIMEPAT_HM (some demoBuf) 8
          U_ZERO_ERROR = ⟨0, some demoBuf, e⟩) ∧
    (∃ e, U_FAILURE e = true ∧
      uatmufmt_getListPattern demoStore (some "zz") UATIMEUNITSTYLE_FULL
          UATIMEUNITLISTPAT_TWO_ONLY (some demoBuf) 8 U_ZERO_ERROR
        = ⟨0, some demoBuf, e⟩) :=
  ⟨(failure_atomic demoStore (some "en-US") UATIMEUNITTIMEPAT_HM UATIMEUNITSTYLE_FULL
      UATIMEUNITLISTPAT_TWO_ONLY (some demoBuf) (-1) U_ZERO_ERROR (by decide)).1 (by decide),
   (failure_atomic demoStore (some "zz") UATIMEUNITTIMEPAT_HM UATIMEUNITSTYLE_FULL
      UATIMEUNITLISTPAT_TWO_ONLY (some demoBuf) 8 U_ZERO_ERROR (by decide)).2.2.2.1 "hm"
      (by decide) (by decide) (by decide),
   (failure_atomic demoStore (some "zz") UATIMEUNITSTYLE_FULL UATIMEUNITSTYLE_FULL
      UATIMEUNITLISTPAT_TWO_ONLY (some demoBuf) 8 U_ZERO_ERROR (by decide)).2.2.2.2 "unit"
      "2" (by decide) (by decide) (by decide) (by decide)⟩

/-- C7: preflight idempotence: a zero-capacity call returns the required
length, and re-calling with capacity equal to that length writes the same
pattern content as a single call with ample capacity (and both calls return
the same length). -/
theorem preflight_idempotent (store : ResStore) (locale : Option String) (t style tp : Int)
    (key sKey tKey : String) (buf1 buf2 bufl1 bufl2 : Nat → UChar) (cap2 capl2 : Int)
    (st : UErrorCode) (s sl : List UChar)
    (hst : U_SUCCESS st = true)
    (hkey : timePatternKey t = some key)
    (hspec : specStringAtPath store U_ICUDATA_UNIT locale ["durationUnits", key] = some s)
    (hs : 0 ∉ s) (hcap2 : (s.length : Int) < cap2)
    (hsk : styleKey style = some sKey) (htk : listPatternTypeKey tp = some tKey)
    (hspecl : specStringAtPath store none locale ["listPattern", sKey, tKey] = some sl)
    (hsl : 0 ∉ sl) (hcapl2 : (sl.length : Int) < capl2) :
    ((uatmufmt_getTimePattern store locale t none 0 st).ret = (s.length : Int) ∧
      ∃ f1 f2,
        (uatmufmt_getTimePattern store locale t (some buf1)
            ((uatmufmt_getTimePattern store locale t none 0 st).ret) st).buf = some f1 ∧
        (uatmufmt_getTimePattern store locale t (some buf2) cap2 st).buf = some f2 ∧
        (uatmufmt_getTimePattern store locale t (some buf1)
            ((uatmufmt_getTimePattern store locale t none 0 st).ret) st).ret
          = (uatmufmt_getTimePattern store locale t (some buf2) cap2 st).ret ∧
        ∀ j, j < s.length → f1 j = f2 j) ∧
    ((uatmufmt_getListPattern store locale style tp none 0 st).ret = (sl.length : Int) ∧
      ∃ f1 f2,
        (uatmufmt_getListPattern store locale style tp (some bufl1)
            ((uatmufmt_getListPattern store locale style tp none 0 st).ret) st).buf
          = some f1 ∧
        (uatmufmt_getListPattern store locale style tp (some bufl2) capl2 st).buf = some f2 ∧
        (uatmufmt_getListPattern store locale style tp (some bufl1)
            ((uatmufmt_getListPattern store locale style tp none 0 st).ret) st).ret
          = (uatmufmt_getListPattern store locale style tp (some bufl2) capl2 st).ret ∧
        ∀ j, j < sl.length → f1 j = f2 j) := by
  have hbuf1 : invalidBuffer (some buf1) (s.length : Int) = false := by
    simp only [invalidBuffer, decide_eq_false_iff_not, not_lt]
    omega
  have hbuf2 : invalidBuffer (some buf2) cap2 = false := by
    simp only [invalidBuffer, decide_eq_false_iff_not, not_lt]
    omega
  have hbufl1 : invalidBuffer (some bufl1) (sl.length : Int) = false := by
    simp only [invalidBuffer, decide_eq_false_iff_not, not_lt]
    omega
  have hbufl2 : invalidBuffer (some bufl2) capl2 = false := by
    simp only [invalidBuffer, decide_eq_false_iff_not, not_lt]
    omega
  have hpre : (uatmufmt_getTimePattern store locale t none 0 st).ret = (s.length : Int) := by
    rw [getTimePattern_success_form store locale t key none 0 st s hst (by decide) hkey hspec]
    simp [u_terminateUChars_ret]
  have hprel : (uatmufmt_getListPattern store locale style tp none 0 st).ret
      = (sl.length : Int) := by
    rw [getListPattern_success_form store locale style tp sKey tKey none 0 st sl hst
      (by decide) hsk htk hspecl]
    simp [u_terminateUChars_ret]
  constructor
  · refine ⟨hpre, ?_⟩
    rw [hpre]
    rw [getTimePattern_success_form store locale t key (some buf1) (s.length : Int) st s hst
      hbuf1 hkey hspec]
    rw [getTimePattern_success_form store locale t key (some buf2) cap2 st s hst hbuf2 hkey
      hspec]
    obtain ⟨f1, heq1, hcont1, hframe1⟩ := fillPhase_eq s hs buf1 st hst
    obtain ⟨f2, st2, heq2, hsucc2, hcont2, hterm2, hframe2⟩ :=
      fillPhase_lt s hs buf2 cap2 st hst hcap2
    rw [heq1, heq2]
    refine ⟨f1, f2, rfl, rfl, rfl, ?_⟩
    intro j hj
    rw [hcont1 j hj, hcont2 j hj]
  · refine ⟨hprel, ?_⟩
    rw [hprel]
    rw [getListPattern_success_form store locale style tp sKey tKey (some bufl1)
      (sl.length : Int) st sl hst hbufl1 hsk htk hspecl]
    rw [getListPattern_success_form store locale style tp sKey tKey (some bufl2) capl2 st sl
      hst hbufl2 hsk htk hspecl]
    obtain ⟨f1, heq1, hcont1, hframe1⟩ := fillPhase_eq sl hsl bufl1 st hst
    obtain ⟨f2, st2, heq2, hsucc2, hcont2, hterm2, hframe2⟩ :=
      fillPhase_lt sl hsl bufl2 capl2 st hst hcapl2
    rw [heq1, heq2]
    refine ⟨f1, f2, rfl, rfl, rfl, ?_⟩
    intro j hj
    rw [hcont1 j hj, hcont2 j hj]

theorem preflight_idempotent_witness :
    ((uatmufmt_getTimePattern demoStore (some "en-US") UATIMEUNITTIMEPAT_HM none 0
        U_ZERO_ERROR).ret = (demoTimePattern.length : Int) ∧
      ∃ f1 f2,
        (uatmufmt_getTimePattern demoStore (some "en-US") UATIMEUNITTIMEPAT_HM (some demoBuf)
            ((uatmufmt_getTimePattern demoStore (some "en-US") UATIMEUNITTIMEPAT_HM none 0
              U_ZERO_ERROR).ret) U_ZERO_ERROR).buf = some f1 ∧
        (uatmufmt_getTimePattern demoStore (some "en-US") UATIMEUNITTIMEPAT_HM
            (some demoBuf2) 9 U_ZERO_ERROR).buf = some f2 ∧
        (uatmufmt_getTimePattern demoStore (some "en-US") UATIMEUNITTIMEPAT_HM (some demoBuf)
            ((uatmufmt_getTimePattern demoStore (some "en-US") UATIMEUNITTIMEPAT_HM none 0
              U_ZERO_ERROR).ret) U_ZERO_ERROR).ret
          = (uatmufmt_getTimePattern demoStore (some "en-US") UATIMEUNITTIMEPAT_HM
              (some demoBuf2) 9 U_ZERO_ERROR).ret ∧
        ∀ j, j < demoTimePattern.length → f1 j = f2 j) ∧
    ((uatmufmt_getListPattern demoStore (some "en-US") UATIMEUNITSTYLE_FULL
        UATIMEUNITLISTPAT_TWO_ONLY none 0 U_ZERO_ERROR).ret
        = (demoListPattern.length : Int) ∧
      ∃ f1 f2,
        (uatmufmt_getListPattern demoStore (some "en-US") UATIMEUNITSTYLE_FULL
            UATIMEUNITLISTPAT_TWO_ONLY (some demoBuf)
            ((uatmufmt_getListPattern demoStore (some "en-US") UATIMEUNITSTYLE_FULL
              UATIMEUNITLISTPAT_TWO_ONLY none 0 U_ZERO_ERROR).ret) U_ZERO_ERROR).buf
          = some f1 ∧
        (uatmufmt_getListPattern demoStore (some "en-US") UATIMEUNITSTYLE_FULL
            UATIMEUNITLISTPAT_TWO_ONLY (some demoBuf2) 9 U_ZERO_ERROR).buf = some f2 ∧
        (uatmufmt_getListPattern demoStore (some "en-US") UATIMEUNITSTYLE_FULL
            UATIMEUNITLISTPAT_TWO_ONLY (some demoBuf)
            ((uatmufmt_getListPattern demoStore (some "en-US") UATIMEUNITSTYLE_FULL
              UATIMEUNITLISTPAT_TWO_ONLY none 0 U_ZERO_ERROR).ret) U_ZERO_ERROR).ret
          = (uatmufmt_getListPattern demoStore (some "en-US") UATIMEUNITSTYLE_FULL
              UATIMEUNITLISTPAT_TWO_ONLY (some demoBuf2) 9 U_ZERO_ERROR).ret ∧
        ∀ j, j < demoListPattern.length → f1 j = f2 j) :=
  preflight_idempotent demoStore (some "en-US") UATIMEUNITTIMEPAT_HM UATIMEUNITSTYLE_FULL
    UATIMEUNITLISTPAT_TWO_ONLY "hm" "unit" "2" demoBuf demoBuf2 demoBuf demoBuf2 9 9
    U_ZERO_ERROR demoTimePattern demoListPattern (by decide) (by decide) (by decide)
    (by decide) (by decide) (by decide) (by decide) (by decide) (by decide) (by decide)
